import Mathlib

/-!
# Verification of the SpeakSpace search cache and agent bridge

Shallow embedding of the core of the VTHACKS13-SpeakSpace frontend:

* the `searchStore` zustand store (`buildKey`, `_evictIfNeeded`, `saveResults`,
  `getResults`, `getLast`, `getResultsOrLast`, `saveMapState`,
  `saveRadiusForPlace`/`getRadiusForPlace`) from `src/frontend/src/routes.jsx`
  (file contains the concatenated `src/searchStore.js` module);
* the cache-aware search orchestrator `runSearch` from
  `src/frontend/src/pages/Dashboard.jsx`;
* the `AgentBridge` polling dispatcher (`apply`, `tick`) from the unnamed
  source file `src/unnamed/part_001`;
* the websocket transport lifecycle from `src/frontend/src/lib/agentSocket.js`
  (`startAgentSocket` teardown closure, legacy `connectAgentSocket`).

JavaScript machine details are embedded as follows: `Date.now()` instants are
`Nat` milliseconds passed explicitly; JS objects used as string-keyed maps are
association lists in key-insertion order (JS string-key enumeration order);
`Array.prototype.sort`, required stable by ES2019, is embedded as
`List.insertionSort` (stable); `String.prototype.trim` / `toLowerCase` are
embedded over `Char.isWhitespace` / `Char.toLower` (exact on the ASCII data
this application produces).
-/

namespace SpeakSpace

/-! ## JS string primitives -/

/-- Embedding of `String.prototype.trim`: drop whitespace from both ends. -/
def jsTrim (s : String) : String :=
  ⟨((s.data.dropWhile Char.isWhitespace).reverse.dropWhile Char.isWhitespace).reverse⟩

/-- Embedding of `String.prototype.toLowerCase`. -/
def jsToLower (s : String) : String :=
  ⟨s.data.map Char.toLower⟩

/-- JS template-literal interpolation of a possibly-`undefined` value:
`undefined` renders as the string `"undefined"`. -/
def jsStrOpt : Option String → String
  | some s => s
  | none => "undefined"

/-- `q || ""`: an absent (`undefined`) query falls back to the empty string. -/
def jsOrEmpty : Option String → String
  | some s => s
  | none => ""

/-! ## Search parameters and cache entries -/

/-- The search-parameter objects that flow through the app:
`{ mode: "text", q }` or `{ mode: "nearby", sw, ne }`; absent fields are
`none` (JS `undefined`). -/
structure Params where
  mode : Option String
  q : Option String
  sw : Option String
  ne : Option String
deriving DecidableEq

/-- A result row; opaque to the core (only its identity matters). -/
structure Place where
  id : String
deriving DecidableEq

/-- A `{ center: { lat, lng }, zoom }` map snapshot; opaque pass-through data
(numeric values are never computed on by the core). -/
structure MapState where
  lat : Int
  lng : Int
  zoom : Int
deriving DecidableEq

/-- A cache entry `{ results, params, mapState, ts }`. -/
structure CacheEntry where
  results : List Place
  params : Params
  mapState : Option MapState
  ts : Nat
deriving DecidableEq

/-- Fallback `JSON.stringify(params)` serialization used by `buildKey` for
unrecognized modes: present fields in declaration order, `undefined` fields
skipped (as `JSON.stringify` does). No claim depends on this branch. -/
def jsonStringifyParams (p : Params) : String :=
  "\x7b" ++ String.intercalate ","
    ((match p.mode with | some v => ["\"mode\":\"" ++ v ++ "\""] | none => []) ++
     (match p.q with | some v => ["\"q\":\"" ++ v ++ "\""] | none => []) ++
     (match p.sw with | some v => ["\"sw\":\"" ++ v ++ "\""] | none => []) ++
     (match p.ne with | some v => ["\"ne\":\"" ++ v ++ "\""] | none => []))
    ++ "\x7d"

/-- `buildKey` from `searchStore.js`:
```js
const buildKey = (params = {}) => {
  const { mode, q, sw, ne } = params || {};
  if (mode === "text") return `text:${(q || "").trim().toLowerCase()}`;
  if (mode === "nearby") return `nearby:${sw}|${ne}`;
  return JSON.stringify(params);
};
``` -/
def buildKey (p : Params) : String :=
  if p.mode = some "text" then "text:" ++ jsToLower (jsTrim (jsOrEmpty p.q))
  else if p.mode = some "nearby" then "nearby:" ++ jsStrOpt p.sw ++ "|" ++ jsStrOpt p.ne
  else jsonStringifyParams p

/-! ## JS object-as-map primitives

A JS object used as a string-keyed map is an association list in key-insertion
order: property lookup, in-place overwrite (keeps position), fresh assignment
(appends), and `delete` (removes, preserving the order of the rest). -/

/-- Property lookup `obj[k]` (absent ↦ `undefined`, i.e. `none`). -/
def assocGet {α : Type} : List (String × α) → String → Option α
  | [], _ => none
  | kv :: rest, k => if kv.1 = k then some kv.2 else assocGet rest k

/-- Property assignment `obj[k] = v`: overwrite in place when the key exists,
append otherwise (JS key-enumeration order). -/
def assocSet {α : Type} (c : List (String × α)) (k : String) (v : α) :
    List (String × α) :=
  if c.any (fun kv => kv.1 = k) then
    c.map (fun kv => if kv.1 = k then (k, v) else kv)
  else c ++ [(k, v)]

/-! ## The search store -/

/-- TTL for cache entries: 24 hours in milliseconds. -/
def TTL_MS : Nat := 24 * 60 * 60 * 1000

/-- Capacity bound on the cache mapping. -/
def MAX_KEYS : Nat := 10

/-- The persisted `searchStore` state. -/
structure StoreState where
  cache : List (String × CacheEntry)
  lastKey : Option String
  lastRestored : Bool
  sidebarScrollTop : Nat
  radiusByPlace : List (String × Int)
  categoryByPlace : List (String × String)
deriving DecidableEq

/-- Initial store state. -/
def emptyStore : StoreState :=
  { cache := []
    lastKey := none
    lastRestored := false
    sidebarScrollTop := 0
    radiusByPlace := []
    categoryByPlace := [] }

/-- First phase of `_evictIfNeeded`: remove every entry whose age exceeds
TTL.  Mirrors
```js
for (const k of Object.keys(cache)) {
  if (cache[k]?.ts && now - cache[k].ts > TTL_MS) delete cache[k];
}
```
Note the truthiness guard `cache[k]?.ts`: an entry with `ts = 0` is never
swept. -/
def sweepExpired (now : Nat) (c : List (String × CacheEntry)) :
    List (String × CacheEntry) :=
  c.filter (fun kv => !(decide (kv.2.ts ≠ 0) && decide (now - kv.2.ts > TTL_MS)))

/-- Second phase of `_evictIfNeeded`: capacity eviction.  Mirrors
```js
const keys = Object.keys(cache);
if (keys.length > MAX_KEYS) {
  keys.sort((a, b) => (cache[a].ts || 0) - (cache[b].ts || 0))
      .slice(0, keys.length - MAX_KEYS)
      .forEach((k) => delete cache[k]);
}
```
`Array.prototype.sort` is stable (ES2019), embedded as `insertionSort`. -/
def capacityEvict (c : List (String × CacheEntry)) :
    List (String × CacheEntry) :=
  if c.length > MAX_KEYS then
    let sorted := c.insertionSort (fun a b => a.2.ts ≤ b.2.ts)
    let toDrop := (sorted.take (c.length - MAX_KEYS)).map Prod.fst
    c.filter (fun kv => !(toDrop.contains kv.1))
  else c

/-- `_evictIfNeeded`: expiry sweep first, then capacity eviction, in one
pass. -/
def evictIfNeeded (now : Nat) (c : List (String × CacheEntry)) :
    List (String × CacheEntry) :=
  capacityEvict (sweepExpired now c)

/-- `saveResults(params, results, mapState = null)`: write/overwrite the entry
under `buildKey params` with a fresh timestamp, run eviction, set `lastKey`,
clear the restored flag. -/
def saveResults (s : StoreState) (params : Params) (results : List Place)
    (mapState : Option MapState) (now : Nat) : StoreState :=
  let key := buildKey params
  let cache := assocSet s.cache key
    { results := results, params := params, mapState := mapState, ts := now }
  let cache := evictIfNeeded now cache
  { s with cache := cache, lastKey := some key, lastRestored := false }

/-- `getResults(params)`: lookup under `buildKey params`; an entry whose age
exceeds TTL is reported absent (lazy expiry).  (`entry.ts || 0` coincides with
`entry.ts` on `Nat` timestamps.) -/
def getResults (s : StoreState) (params : Params) (now : Nat) :
    Option CacheEntry :=
  match assocGet s.cache (buildKey params) with
  | none => none
  | some e => if now - e.ts > TTL_MS then none else some e

/-- `getLast()`: resolve `lastKey` with the same TTL check. -/
def getLast (s : StoreState) (now : Nat) : Option CacheEntry :=
  match s.lastKey with
  | none => none
  | some k =>
    match assocGet s.cache k with
    | none => none
    | some e => if now - e.ts > TTL_MS then none else some e

/-- `getResultsOrLast(params)`: exact lookup when params are provided, else
fall back to the last entry. -/
def getResultsOrLast (s : StoreState) (params : Option Params) (now : Nat) :
    Option CacheEntry :=
  let exact := match params with
    | some p => getResults s p now
    | none => none
  match exact with
  | some e => some e
  | none => getLast s now

/-- `saveMapState(paramsOrNull, mapState)`:
```js
let key = paramsOrNull ? buildKey(paramsOrNull) : get().lastKey;
if (!key) return;
const cache = { ...get().cache };
if (cache[key]) {
  cache[key] = { ...cache[key], mapState, ts: Date.now() };
  set({ cache, lastKey: key });
}
```
(the `!key` guard also rejects an empty-string key, which is falsy). -/
def saveMapState (s : StoreState) (paramsOrNull : Option Params)
    (ms : Option MapState) (now : Nat) : StoreState :=
  let key := match paramsOrNull with
    | some p => some (buildKey p)
    | none => s.lastKey
  match key with
  | none => s
  | some k =>
    if k = "" then s
    else
      match assocGet s.cache k with
      | some e =>
        { s with
          cache := assocSet s.cache k { e with mapState := ms, ts := now }
          lastKey := some k }
      | none => s

/-- `saveRadiusForPlace(placeId, radius)`: unconditional upsert into the
separate preference map.  `Number(radius)` is the identity on the numeric
values this embedding models. -/
def saveRadiusForPlace (s : StoreState) (placeId : String) (radius : Int) :
    StoreState :=
  { s with radiusByPlace := assocSet s.radiusByPlace placeId radius }

/-- `getRadiusForPlace(placeId)`: `(get().radiusByPlace || {})[placeId] || null`
— the trailing `|| null` collapses the falsy stored value `0` to `null`. -/
def getRadiusForPlace (s : StoreState) (placeId : String) : Option Int :=
  match assocGet s.radiusByPlace placeId with
  | some v => if v = 0 then none else some v
  | none => none

/-! ## The Dashboard search orchestrator (`runSearch`)

`runSearch` in `Dashboard.jsx` is an async closure over React state.  The
embedding splits it at its single suspension point (`await api.get(...)`):

* `runSearchStart` is the synchronous prefix — abort the in-flight request,
  allocate a fresh `AbortController` (modelled by a generation number), set
  loading, consult the cache, and either publish the cached results or issue
  the network fetch;
* `runSearchComplete` is the continuation that runs when the issued fetch for
  a given generation settles (with the closure's captured `params`/`source`).

Aborting controller `g` is recorded in `aborted`; per the JS event loop, a
fetch whose response settled before a superseding `runSearch` call has already
run its continuation, so a continuation that runs after being superseded
observes `controller.signal.aborted = true`, i.e. its generation is in
`aborted`.  `published` and `fetches` are instrumentation logs: every
`setProperties` performed by `runSearch` paths, and every network request
issued. -/

/-- Outcome of an issued search fetch: a 2xx response whose `data.results`
field is the given array when present (`Array.isArray` guard), or a non-abort
failure (network/server error). -/
inductive FetchOutcome where
  | success (results : Option (List Place))
  | failure
deriving DecidableEq

/-- The Dashboard component state visible to `runSearch`. -/
structure DashState where
  store : StoreState
  properties : List Place
  loading : Bool
  selected : Option Place
  agentBanner : Option String
  mapRef : Option MapState
  currentAbort : Option Nat
  aborted : List Nat
  nextGen : Nat
  published : List (List Place)
  fetches : List (Nat × Params)
deriving DecidableEq

/-- A fresh Dashboard mounted over store `st` (no in-flight request, empty
logs). -/
def initDash (st : StoreState) : DashState :=
  { store := st
    properties := []
    loading := false
    selected := none
    agentBanner := none
    mapRef := none
    currentAbort := none
    aborted := []
    nextGen := 0
    published := []
    fetches := [] }

/-- `markRestored(flag)` from the store: `set({ lastRestored: !!flag })`. -/
def markRestored (st : StoreState) (flag : Bool) : StoreState :=
  { st with lastRestored := flag }

/-- The cache consultation `if (cached?.results?.length) ...`: a hit requires
a non-expired entry AND a nonempty results array (`.length` truthy). -/
def cacheHit (st : StoreState) (params : Params) (now : Nat) :
    Option CacheEntry :=
  match getResults st params now with
  | some e => if e.results.isEmpty then none else some e
  | none => none

/-- The agent banner text `Updated from voice agent (${params.mode})`. -/
def agentBannerText (params : Params) : String :=
  "Updated from voice agent (" ++ jsStrOpt params.mode ++ ")"

/-- Synchronous prefix of `runSearch(params, { source })` up to the network
call (Dashboard.jsx lines 114–137). -/
def runSearchStart (s : DashState) (params : Params) (source : Option String)
    (now : Nat) : DashState :=
  -- cancel any in-flight request
  let s := match s.currentAbort with
    | some g => { s with aborted := g :: s.aborted }
    | none => s
  -- new AbortController, setLoading(true), setSelected(null)
  let gen := s.nextGen
  let s := { s with
    currentAbort := some gen
    nextGen := gen + 1
    loading := true
    selected := none }
  match cacheHit s.store params now with
  | some e =>
    { s with
      properties := e.results
      published := s.published ++ [e.results]
      store := markRestored s.store true
      loading := false
      agentBanner :=
        if source = some "agent" then some (agentBannerText params)
        else s.agentBanner }
  | none =>
    { s with fetches := s.fetches ++ [(gen, params)] }

/-- Continuation of `runSearch` once the fetch of generation `gen` settles
(Dashboard.jsx lines 138–161).  `params`/`source` are the closure's captured
arguments.  A superseded request observes `controller.signal.aborted` and is
silently ignored — only the `finally { setLoading(false) }` runs. -/
def runSearchComplete (s : DashState) (gen : Nat) (params : Params)
    (source : Option String) (outcome : FetchOutcome) (now : Nat) : DashState :=
  if gen ∈ s.aborted then
    { s with loading := false }
  else
    match outcome with
    | .success data =>
      let results := data.getD []    -- Array.isArray(data?.results) ? ... : []
      { s with
        properties := results
        published := s.published ++ [results]
        store := markRestored
          (saveResults s.store params results s.mapRef now) false
        agentBanner :=
          if source = some "agent" then some (agentBannerText params)
          else s.agentBanner
        loading := false }
    | .failure =>
      -- console.error; setProperties([]); finally setLoading(false)
      { s with
        properties := []
        published := s.published ++ [[]]
        loading := false }

/-! ## The AgentBridge polling dispatcher (`src/unnamed/part_001`)

Raw poll payloads are arbitrary JSON-ish values. -/

/-- A JavaScript value as seen by the dispatcher (`undefined` included). -/
inductive JsVal where
  | undef
  | null
  | bool (b : Bool)
  | num (n : Int)
  | str (s : String)
  | arr (elems : List JsVal)
  | obj (fields : List (String × JsVal))

/-- JS truthiness (the model carries no `NaN`). -/
def isTruthy : JsVal → Bool
  | .undef => false
  | .null => false
  | .bool b => b
  | .num n => decide (n ≠ 0)
  | .str s => decide (s ≠ "")
  | .arr _ => true
  | .obj _ => true

/-- `typeof v === "object"` (true for objects, arrays and `null`). -/
def typeofObject : JsVal → Bool
  | .null => true
  | .arr _ => true
  | .obj _ => true
  | _ => false

/-- Property access `v.name` on the values the dispatcher reaches (absent
property or non-object receiver ↦ `undefined`; the dispatcher only
dereferences after its object guards). -/
def getProp (v : JsVal) (name : String) : JsVal :=
  match v with
  | .obj fields =>
    match fields.find? (fun kv => kv.1 = name) with
    | some kv => kv.2
    | none => .undef
  | _ => .undef

mutual

/-- `String(v)` coercion. -/
def jsString : JsVal → String
  | .undef => "undefined"
  | .null => "null"
  | .bool b => cond b "true" "false"
  | .num n => toString n
  | .str s => s
  | .obj _ => "[object Object]"
  | .arr l => jsStringArr l

/-- `Array.prototype.toString`: elements joined by commas, `null`/`undefined`
elements rendering empty. -/
def jsStringArr : List JsVal → String
  | [] => ""
  | v :: rest =>
    (match v with
      | .undef => ""
      | .null => ""
      | w => jsString w) ++
    (match rest with
      | [] => ""
      | _ => "," ++ jsStringArr rest)

end

/-- The fixed message-type allow-list of `AgentBridge.apply`. -/
def allowedTypes : List String :=
  ["AGENT_RESULTS", "AGENT_SEARCH", "AGENT_UI", "AGENT_PING", "AGENT_LOG"]

/-- `apply(msg)` from `AgentBridge` (part_001 lines 9–23): validate and
forward (`window.postMessage`) or silently drop.  Returns the posted message,
if any; the function is total, so no error can surface. -/
def applyMsg (msg : JsVal) : Option JsVal :=
  if !(isTruthy msg) then none                            -- !msg
  else if !(typeofObject msg) then none                   -- typeof msg !== "object"
  else if !(isTruthy (getProp msg "type")) then none      -- !msg.type
  else if !(allowedTypes.contains (jsString (getProp msg "type"))) then none
  else some msg                                           -- postMessage(msg, target)

/-- One poll response being dispatched by `tick` (part_001 lines 29–52): the
three accepted shapes — `{ pending: true, message }`, an array of messages, a
direct message with a `type` field — and the silent drop otherwise.  Returns
the list of messages posted to the window. -/
def dispatchResponse (data : JsVal) : List JsVal :=
  if isTruthy (getProp data "pending") && isTruthy (getProp data "message") then
    (applyMsg (getProp data "message")).toList
  else
    match data with
    | .arr elems => elems.filterMap applyMsg              -- Array.isArray(data)
    | _ =>
      if isTruthy data && typeofObject data && isTruthy (getProp data "type") then
        (applyMsg data).toList
      else []

/-! ## Transport lifecycle (`agentSocket.js`, `AgentBridge` poll loop)

`startAgentSocket` owns a `closed` flag, the current socket and (implicitly)
a possibly-pending reconnect timer:

```js
let ws; let closed = false;
const connect = () => {
  ws = new WebSocket(wsUrl());
  ...
  ws.onclose = () => { if (!closed) setTimeout(connect, 1200); };
};
connect();
return () => { closed = true; try { ws && ws.close(); } catch {} };
```

The embedding is a state machine over the three externally-scheduled events:
a close event on the current socket, the 1200 ms reconnect timer firing, and
the returned teardown closure being invoked.  `connects` counts every
`new WebSocket(...)` construction (connection attempts). -/

/-- `startAgentSocket` transport state: the captured `closed` flag, whether a
`setTimeout(connect, 1200)` is pending, and how many connection attempts have
been made. -/
structure PushState where
  closed : Bool
  timerPending : Bool
  connects : Nat
deriving DecidableEq

/-- State right after `startAgentSocket()` ran its initial `connect()`. -/
def pushInit : PushState :=
  { closed := false, timerPending := false, connects := 1 }

/-- Events the push transport reacts to. -/
inductive PushEvent where
  | wsClose    -- the current socket's onclose handler fires
  | timerFire  -- a pending reconnect timer fires, running connect()
  | teardown   -- the closure returned by startAgentSocket is invoked
deriving DecidableEq

/-- One step of the `startAgentSocket` lifecycle.  A `timerFire` without a
pending timer is a stutter (no such event can be scheduled). -/
def pushStep (s : PushState) : PushEvent → PushState
  | .wsClose =>
    if s.closed then s else { s with timerPending := true }
  | .timerFire =>
    if s.timerPending then
      { s with timerPending := false, connects := s.connects + 1 }
    else s
  | .teardown => { s with closed := true }

/-- Run a sequence of events. -/
def pushRun (s : PushState) (evts : List PushEvent) : PushState :=
  evts.foldl pushStep s

/-- The legacy `connectAgentSocket` close handler
(`ws.onclose = () => setTimeout(() => connectAgentSocket(onMessage), 2000)`):
every close unconditionally schedules a reconnect; there is no `closed` flag
and no teardown operation.  `true` = a reconnect is now scheduled. -/
def connectAgentSocketOnClose : Bool := true

/-- `AgentBridge` poll-loop state: the captured `stop` flag and the number of
poll fetches issued. -/
structure PollState where
  stop : Bool
  polls : Nat
deriving DecidableEq

/-- One iteration of `while (!stop) { fetch...; sleep }`: the `stop` flag is
checked before every fetch. -/
def pollStep (s : PollState) : PollState :=
  if s.stop then s else { s with polls := s.polls + 1 }

/-- `n` further loop iterations. -/
def pollRun (s : PollState) : Nat → PollState
  | 0 => s
  | n + 1 => pollRun (pollStep s) n

/-- The `AgentBridge` effect cleanup `() => { stop = true; }`. -/
def pollTeardown (s : PollState) : PollState :=
  { s with stop := true }

/-! ## Auxiliary definitions for claim statements -/

/-- Two character lists differ only in letter case. -/
def caseVariant : List Char → List Char → Bool
  | [], [] => true
  | a :: l, b :: m => (a.toLower == b.toLower) && caseVariant l m
  | _, _ => false

/-- The cache entry that `saveResults params results` (no map snapshot) creates
at instant `ts`, together with its key. -/
def entryOf (it : Params × List Place × Nat) : String × CacheEntry :=
  (buildKey it.1,
   { results := it.2.1, params := it.1, mapState := none, ts := it.2.2 })

/-- Perform a sequence of `saveResults(params, results)` writes, the write of
item `(params, results, t)` executing at instant `t`. -/
def saveMany (s : StoreState) (items : List (Params × List Place × Nat)) :
    StoreState :=
  items.foldl (fun acc it => saveResults acc it.1 it.2.1 none it.2.2) s

/-! ## Concrete fixtures used by witnesses and counterexamples -/

/-- Concrete text-mode search parameters `{ mode: "text", q: "w" }`. -/
def pFixW : Params := { mode := some "text", q := some "w", sw := none, ne := none }

/-- Concrete cache entry written at instant 1000. -/
def eFixW : CacheEntry :=
  { results := [{ id := "pl" }], params := pFixW, mapState := none, ts := 1000 }

/-- Concrete store holding `eFixW` under its key. -/
def stFixW : StoreState :=
  { emptyStore with cache := [("text:w", eFixW)], lastKey := some "text:w" }

/-- Concrete text-mode search parameters `{ mode: "text", q: "a" }`. -/
def pFixA : Params := { mode := some "text", q := some "a", sw := none, ne := none }

/-- Concrete text-mode search parameters `{ mode: "text", q: "b" }`. -/
def pFixB : Params := { mode := some "text", q := some "b", sw := none, ne := none }

/-- Concrete cache entry for `pFixA`, written at instant 1. -/
def eFixA : CacheEntry :=
  { results := [{ id := "ra" }], params := pFixA, mapState := none, ts := 1 }

/-- Concrete cache entry for `pFixB`, written at instant 2. -/
def eFixB : CacheEntry :=
  { results := [{ id := "rb" }], params := pFixB, mapState := none, ts := 2 }

/-- Concrete store holding entries for `pFixA` and `pFixB`, with `lastKey`
pointing at `pFixB`'s key. -/
def stFixAB : StoreState :=
  { emptyStore with
    cache := [("text:a", eFixA), ("text:b", eFixB)]
    lastKey := some "text:b" }

/-- A concrete map snapshot. -/
def msFix : MapState := { lat := 37, lng := -80, zoom := 13 }

/-- The spec's concrete `AGENT_SEARCH` message
`{ type: "AGENT_SEARCH", params: { mode: "text", q: "norfolk" } }`. -/
def msgSearchFix : JsVal :=
  .obj [("type", .str "AGENT_SEARCH"),
        ("params", .obj [("mode", .str "text"), ("q", .str "norfolk")])]

/-- The spec's wrapped payload `{ pending: true, message: ... }`. -/
def msgWrappedFix : JsVal :=
  .obj [("pending", .bool true), ("message", msgSearchFix)]

/-- The spec's bare `AGENT_UI` message
`{ type: "AGENT_UI", action: "FOCUS_MAP", payload: { lat: 1, lng: 2 } }`. -/
def msgUiFix : JsVal :=
  .obj [("type", .str "AGENT_UI"), ("action", .str "FOCUS_MAP"),
        ("payload", .obj [("lat", .num 1), ("lng", .num 2)])]

/-- The spec's malformed payload `{ foo: "bar" }`. -/
def msgBadFix : JsVal := .obj [("foo", .str "bar")]

/-- Concrete store holding a non-expired entry for `pFixA` whose `results`
array is empty. -/
def stFixEmptyRes : StoreState :=
  { emptyStore with
    cache := [("text:a",
      { results := [], params := pFixA, mapState := none, ts := 5 })]
    lastKey := some "text:a" }

/-- Twelve writes with pairwise-distinct text queries and strictly increasing
timestamps 1..12. -/
def itemsFix : List (Params × List Place × Nat) :=
  [({ mode := some "text", q := some "a", sw := none, ne := none }, [], 1),
   ({ mode := some "text", q := some "b", sw := none, ne := none }, [], 2),
   ({ mode := some "text", q := some "c", sw := none, ne := none }, [], 3),
   ({ mode := some "text", q := some "d", sw := none, ne := none }, [], 4),
   ({ mode := some "text", q := some "e", sw := none, ne := none }, [], 5),
   ({ mode := some "text", q := some "f", sw := none, ne := none }, [], 6),
   ({ mode := some "text", q := some "g", sw := none, ne := none }, [], 7),
   ({ mode := some "text", q := some "h", sw := none, ne := none }, [], 8),
   ({ mode := some "text", q := some "i", sw := none, ne := none }, [], 9),
   ({ mode := some "text", q := some "j", sw := none, ne := none }, [], 10),
   ({ mode := some "text", q := some "k", sw := none, ne := none }, [], 11),
   ({ mode := some "text", q := some "l", sw := none, ne := none }, [], 12)]

/-! ## Association-list lemmas -/

theorem assocSet_overwrite {α : Type} (c : List (String × α)) (k : String)
    (v : α) (h : c.any (fun kv => kv.1 = k) = true) :
    assocSet c k v = c.map (fun kv => if kv.1 = k then (k, v) else kv) := by
  unfold assocSet
  simp [h]

theorem assocSet_keys_fresh {α : Type} (c : List (String × α)) (k : String)
    (v : α) (h : c.any (fun kv => kv.1 = k) = false) :
    assocSet c k v = c ++ [(k, v)] := by
  unfold assocSet
  simp [h]

theorem assocGet_append_right {α : Type} (c d : List (String × α)) (k : String)
    (h : assocGet c k = none) : assocGet (c ++ d) k = assocGet d k := by
  induction c with
  | nil => simp
  | cons x t ih =>
    by_cases hx : x.1 = k
    · simp [assocGet, hx] at h
    · simp only [assocGet, hx, if_false, List.cons_append] at h ⊢
      exact ih h

theorem assocGet_append_key_ne {α : Type} (c : List (String × α))
    (k k' : String) (v : α) (hne : k' ≠ k) :
    assocGet (c ++ [(k, v)]) k' = assocGet c k' := by
  induction c with
  | nil =>
    have hk : ¬ (k = k') := fun hh => hne hh.symm
    simp [assocGet, hk]
  | cons x t ih =>
    by_cases hx : x.1 = k'
    · simp [assocGet, hx]
    · simp only [List.cons_append, assocGet, hx, if_false]
      exact ih

theorem assocGet_none_of_any_false {α : Type} (c : List (String × α))
    (k : String) (h : c.any (fun kv => kv.1 = k) = false) :
    assocGet c k = none := by
  induction c with
  | nil => rfl
  | cons x t ih =>
    simp only [List.any_cons, Bool.or_eq_false_iff] at h
    have hx : ¬ x.1 = k := by simpa using h.1
    simp only [assocGet, hx, if_false]
    exact ih h.2

theorem assocGet_assocSet_self {α : Type} (c : List (String × α)) (k : String)
    (v : α) : assocGet (assocSet c k v) k = some v := by
  by_cases h : c.any (fun kv => kv.1 = k) = true
  · rw [assocSet_overwrite c k v h]
    induction c with
    | nil => simp at h
    | cons x t ih =>
      by_cases hx : x.1 = k
      · simp [assocGet, hx]
      · have ht : t.any (fun kv => kv.1 = k) = true := by
          simpa [List.any_cons, hx] using h
        simp only [List.map_cons, assocGet, hx, if_neg hx]
        simpa [hx] using ih ht
  · have h' : c.any (fun kv => kv.1 = k) = false := Bool.eq_false_iff.mpr h
    rw [assocSet_keys_fresh c k v h']
    rw [assocGet_append_right c _ k (assocGet_none_of_any_false c k h')]
    simp [assocGet]

theorem assocGet_assocSet_ne {α : Type} (c : List (String × α)) (k k' : String)
    (v : α) (hne : k' ≠ k) :
    assocGet (assocSet c k v) k' = assocGet c k' := by
  by_cases h : c.any (fun kv => kv.1 = k) = true
  · rw [assocSet_overwrite c k v h]
    clear h
    induction c with
    | nil => rfl
    | cons x t ih =>
      by_cases hx : x.1 = k
      · have hk' : ¬ (k = k') := fun hh => hne hh.symm
        have hx' : ¬ x.1 = k' := by rw [hx]; exact fun hh => hne hh.symm
        simp only [List.map_cons, if_pos hx, assocGet, hk', if_false, hx']
        exact ih
      · simp only [List.map_cons, if_neg hx, assocGet]
        by_cases hx' : x.1 = k'
        · simp [hx']
        · simp only [hx', if_false]
          exact ih
  · have h' : c.any (fun kv => kv.1 = k) = false := Bool.eq_false_iff.mpr h
    rw [assocSet_keys_fresh c k v h']
    exact assocGet_append_key_ne c k k' v hne

theorem assocSet_keys_overwrite {α : Type} (c : List (String × α)) (k : String)
    (v : α) (h : c.any (fun kv => kv.1 = k) = true) :
    (assocSet c k v).map Prod.fst = c.map Prod.fst := by
  rw [assocSet_overwrite c k v h, List.map_map]
  apply List.map_congr_left
  intro kv _
  by_cases hx : kv.1 = k
  · simp [hx]
  · simp [hx]

theorem assocGet_some_any {α : Type} (c : List (String × α)) (k : String)
    (e : α) (h : assocGet c k = some e) :
    c.any (fun kv => kv.1 = k) = true := by
  induction c with
  | nil => simp [assocGet] at h
  | cons x t ih =>
    by_cases hx : x.1 = k
    · simp [List.any_cons, hx]
    · simp only [assocGet, hx, if_false] at h
      simp [List.any_cons, ih h]

theorem key_not_mem_of_any_false {α : Type} (c : List (String × α))
    (k : String) (h : c.any (fun kv => kv.1 = k) = false) :
    k ∉ c.map Prod.fst := by
  intro hmem
  rcases List.mem_map.mp hmem with ⟨kv, hkv, hfst⟩
  have : c.any (fun kv => kv.1 = k) = true :=
    List.any_eq_true.mpr ⟨kv, hkv, by simp [hfst]⟩
  rw [h] at this
  exact Bool.false_ne_true this

theorem assocSet_keys_nodup {α : Type} (c : List (String × α)) (k : String)
    (v : α) (h : (c.map Prod.fst).Nodup) :
    ((assocSet c k v).map Prod.fst).Nodup := by
  by_cases hany : c.any (fun kv => kv.1 = k) = true
  · rw [assocSet_keys_overwrite c k v hany]; exact h
  · have h' : c.any (fun kv => kv.1 = k) = false := Bool.eq_false_iff.mpr hany
    rw [assocSet_keys_fresh c k v h', List.map_append]
    rw [List.nodup_append]
    refine ⟨h, by simp, ?_⟩
    intro a ha hb
    simp only [List.map_cons, List.map_nil, List.mem_singleton] at hb
    subst hb
    exact key_not_mem_of_any_false c a h' ha

theorem caseVariant_map_toLower :
    ∀ (l m : List Char), caseVariant l m = true →
      l.map Char.toLower = m.map Char.toLower := by
  intro l
  induction l with
  | nil =>
    intro m h
    cases m with
    | nil => rfl
    | cons b t => simp [caseVariant] at h
  | cons a l ih =>
    intro m h
    cases m with
    | nil => simp [caseVariant] at h
    | cons b t =>
      simp only [caseVariant, Bool.and_eq_true, beq_iff_eq] at h
      simp [h.1, ih t h.2]

/-- **C4.** KeyBuilder normalization: text-mode keys are invariant under
letter-case changes and leading/trailing whitespace in the query (the trimmed
queries being case-variants of each other yields identical keys), while
nearby-mode keys embed the coordinate strings exactly as provided, with no
normalization. -/
theorem buildKey_normalization :
    (∀ p1 p2 : Params, p1.mode = some "text" → p2.mode = some "text" →
      caseVariant (jsTrim (jsOrEmpty p1.q)).data (jsTrim (jsOrEmpty p2.q)).data
        = true →
      buildKey p1 = buildKey p2)
    ∧ (∀ sw ne q : String,
      buildKey { mode := some "nearby", q := some q, sw := some sw,
                 ne := some ne }
        = "nearby:" ++ sw ++ "|" ++ ne) := by
  constructor
  · intro p1 p2 h1 h2 hcv
    unfold buildKey
    rw [h1, h2]
    unfold jsToLower
    rw [caseVariant_map_toLower _ _ hcv]
    simp
  · intro sw ne q
    unfold buildKey
    simp [jsStrOpt]

/-- Witness for C4 at the concrete queries `" Norfolk "` and `"norfolk"` and
concrete nearby coordinates. -/
theorem buildKey_normalization_witness :
    buildKey { mode := some "text", q := some " Norfolk ", sw := none,
               ne := none }
      = buildKey { mode := some "text", q := some "norfolk", sw := none,
                   ne := none }
    ∧ buildKey { mode := some "nearby", q := some "x", sw := some "37.2,-80.4",
                 ne := some "37.3,-80.3" }
      = "nearby:" ++ "37.2,-80.4" ++ "|" ++ "37.3,-80.3" :=
  ⟨buildKey_normalization.1 _ _ rfl rfl (by decide),
   buildKey_normalization.2 "37.2,-80.4" "37.3,-80.3" "x"⟩

/-- **C10.** Radius preference round-trip: a read immediately after
`saveRadiusForPlace(placeId, r)` returns `r` when `r` is nonzero, but the
falsy stored value `0` is collapsed to `null` by `getRadiusForPlace`; writes
for other place ids do not interfere, and a never-written place id reads as
`null`. -/
theorem radius_roundtrip :
    (∀ (s : StoreState) (pid : String) (r : Int),
      getRadiusForPlace (saveRadiusForPlace s pid r) pid
        = if r = 0 then none else some r)
    ∧ (∀ (s : StoreState) (pid pid' : String) (r' : Int), pid' ≠ pid →
      getRadiusForPlace (saveRadiusForPlace s pid' r') pid
        = getRadiusForPlace s pid)
    ∧ (∀ pid : String, getRadiusForPlace emptyStore pid = none) := by
  refine ⟨?_, ?_, ?_⟩
  · intro s pid r
    unfold getRadiusForPlace saveRadiusForPlace
    rw [assocGet_assocSet_self]
  · intro s pid pid' r' hne
    unfold getRadiusForPlace saveRadiusForPlace
    rw [assocGet_assocSet_ne _ _ _ _ (fun hh => hne hh.symm)]
  · intro pid
    rfl

/-- Witness for C10: a nonzero radius round-trips, a zero radius reads back
as `null`, and an unrelated write does not interfere. -/
theorem radius_roundtrip_witness :
    getRadiusForPlace (saveRadiusForPlace emptyStore "place-1" 500) "place-1"
      = some 500
    ∧ getRadiusForPlace (saveRadiusForPlace emptyStore "place-1" 0) "place-1"
      = none
    ∧ getRadiusForPlace
        (saveRadiusForPlace (saveRadiusForPlace emptyStore "place-1" 500)
          "place-2" 7) "place-1"
      = getRadiusForPlace (saveRadiusForPlace emptyStore "place-1" 500)
          "place-1" :=
  ⟨radius_roundtrip.1 emptyStore "place-1" 500,
   radius_roundtrip.1 emptyStore "place-1" 0,
   radius_roundtrip.2.1 _ "place-1" "place-2" 7 (by decide)⟩

theorem getResults_age_le (s : StoreState) (p : Params) (now : Nat)
    (e : CacheEntry) (h : getResults s p now = some e) :
    now - e.ts ≤ TTL_MS := by
  unfold getResults at h
  split at h
  · cases h
  · split at h
    · cases h
    · cases h
      omega

theorem getLast_age_le (s : StoreState) (now : Nat) (e : CacheEntry)
    (h : getLast s now = some e) : now - e.ts ≤ TTL_MS := by
  unfold getLast at h
  split at h
  · cases h
  · split at h
    · cases h
    · split at h
      · cases h
      · cases h
        omega

/-- **C5.** TTL read semantics: an entry present under its key with timestamp
`T` is returned by `getResults` at every read instant strictly before
`T + TTL` and reported absent at every read instant strictly after `T + TTL`;
and no read operation (`getResults`, `getLast`, `getResultsOrLast`) ever
returns an entry whose age exceeds TTL, even if it is still physically
present. -/
theorem ttl_read_semantics :
    (∀ (s : StoreState) (p : Params) (e : CacheEntry) (now : Nat),
      assocGet s.cache (buildKey p) = some e → now < e.ts + TTL_MS →
      getResults s p now = some e)
    ∧ (∀ (s : StoreState) (p : Params) (e : CacheEntry) (now : Nat),
      assocGet s.cache (buildKey p) = some e → e.ts + TTL_MS < now →
      getResults s p now = none)
    ∧ (∀ (s : StoreState) (p : Params) (now : Nat) (e : CacheEntry),
      getResults s p now = some e → now - e.ts ≤ TTL_MS)
    ∧ (∀ (s : StoreState) (now : Nat) (e : CacheEntry),
      getLast s now = some e → now - e.ts ≤ TTL_MS)
    ∧ (∀ (s : StoreState) (popt : Option Params) (now : Nat) (e : CacheEntry),
      getResultsOrLast s popt now = some e → now - e.ts ≤ TTL_MS) := by
  refine ⟨?_, ?_, getResults_age_le, getLast_age_le, ?_⟩
  · intro s p e now h hlt
    unfold getResults
    have hexp : ¬ now - e.ts > TTL_MS := by omega
    simp only [h, if_neg hexp]
  · intro s p e now h hgt
    unfold getResults
    have hexp : now - e.ts > TTL_MS := by omega
    simp only [h, if_pos hexp]
  · intro s popt now e h
    unfold getResultsOrLast at h
    cases popt with
    | none =>
      simp only at h
      exact getLast_age_le s now e h
    | some p =>
      simp only at h
      cases hres : getResults s p now with
      | none =>
        rw [hres] at h
        exact getLast_age_le s now e h
      | some e' =>
        rw [hres] at h
        cases h
        exact getResults_age_le s p now e hres

/-- Witness for C5 at a concrete store: an entry written at `T = 1000` is
returned one millisecond before `T + TTL` and absent one second after. -/
theorem ttl_read_semantics_witness :
    getResults stFixW pFixW (1000 + TTL_MS - 1) = some eFixW
    ∧ getResults stFixW pFixW (1000 + TTL_MS + 1000) = none :=
  ⟨ttl_read_semantics.1 stFixW pFixW eFixW (1000 + TTL_MS - 1)
      (by decide) (by decide),
   ttl_read_semantics.2.1 stFixW pFixW eFixW (1000 + TTL_MS + 1000)
      (by decide) (by decide)⟩

theorem data_append (s t : String) : (s ++ t).data = s.data ++ t.data := rfl

theorem append_data_ne_nil (s t : String) (h : s.data ≠ []) :
    (s ++ t).data ≠ [] := by
  rw [data_append]
  intro he
  exact h (List.append_eq_nil.mp he).1

theorem buildKey_data_ne_nil (p : Params) : (buildKey p).data ≠ [] := by
  unfold buildKey
  by_cases h1 : p.mode = some "text"
  · rw [if_pos h1]
    exact append_data_ne_nil "text:" _ (by decide)
  · rw [if_neg h1]
    by_cases h2 : p.mode = some "nearby"
    · rw [if_pos h2]
      exact append_data_ne_nil _ _
        (append_data_ne_nil _ _ (append_data_ne_nil "nearby:" _ (by decide)))
    · rw [if_neg h2]
      unfold jsonStringifyParams
      exact append_data_ne_nil _ _ (append_data_ne_nil "\x7b" _ (by decide))

theorem buildKey_ne_empty (p : Params) : ¬ (buildKey p = "") := fun h =>
  buildKey_data_ne_nil p (congrArg String.data h)

/-- **C7 counterexample.** The claim says `saveMapState` leaves "the rest of
the store state unchanged", but the source runs `set({ cache, lastKey: key })`
— when params resolve to a key different from the current `lastKey`, the
`lastKey` pointer moves.  Concretely: with `lastKey = "text:b"`, a
`saveMapState` for the (present) `"text:a"` entry updates `lastKey`. -/
theorem saveMapState_moves_lastKey :
    (saveMapState stFixAB (some pFixA) (some msFix) 3).lastKey
      ≠ stFixAB.lastKey := by decide

/-- **C7 (amended).** `saveMapState` updates only the `mapState` field and
timestamp of the entry resolved by `buildKey params` (or by `lastKey` when
params are absent) and repoints `lastKey` at the resolved key — which is a
change when it differs from the current `lastKey`; every other entry, the key
set, and all remaining store fields are unchanged; when the target key is
absent the call is a complete no-op. -/
theorem saveMapState_amended :
    (∀ (s : StoreState) (ms : Option MapState) (now : Nat),
      s.lastKey = none → saveMapState s none ms now = s)
    ∧ (∀ (s : StoreState) (p : Params) (ms : Option MapState) (now : Nat),
      assocGet s.cache (buildKey p) = none → saveMapState s (some p) ms now = s)
    ∧ (∀ (s : StoreState) (k : String) (ms : Option MapState) (now : Nat),
      s.lastKey = some k → assocGet s.cache k = none →
      saveMapState s none ms now = s)
    ∧ (∀ (s : StoreState) (p : Params) (ms : Option MapState) (now : Nat)
        (e : CacheEntry),
      assocGet s.cache (buildKey p) = some e →
      assocGet (saveMapState s (some p) ms now).cache (buildKey p)
          = some { e with mapState := ms, ts := now }
        ∧ (saveMapState s (some p) ms now).cache.map Prod.fst
          = s.cache.map Prod.fst
        ∧ (∀ k', k' ≠ buildKey p →
          assocGet (saveMapState s (some p) ms now).cache k'
            = assocGet s.cache k')
        ∧ (saveMapState s (some p) ms now).lastKey = some (buildKey p)
        ∧ (saveMapState s (some p) ms now).lastRestored = s.lastRestored
        ∧ (saveMapState s (some p) ms now).sidebarScrollTop
          = s.sidebarScrollTop
        ∧ (saveMapState s (some p) ms now).radiusByPlace = s.radiusByPlace
        ∧ (saveMapState s (some p) ms now).categoryByPlace = s.categoryByPlace)
    ∧ (∀ (s : StoreState) (k : String) (ms : Option MapState) (now : Nat)
        (e : CacheEntry),
      s.lastKey = some k → ¬ (k = "") → assocGet s.cache k = some e →
      assocGet (saveMapState s none ms now).cache k
          = some { e with mapState := ms, ts := now }
        ∧ (saveMapState s none ms now).cache.map Prod.fst
          = s.cache.map Prod.fst
        ∧ (saveMapState s none ms now).lastKey = s.lastKey
        ∧ (∀ k', k' ≠ k →
          assocGet (saveMapState s none ms now).cache k'
            = assocGet s.cache k')) := by
  refine ⟨?_, ?_, ?_, ?_, ?_⟩
  · intro s ms now h
    unfold saveMapState
    rw [h]
  · intro s p ms now h
    unfold saveMapState
    simp [h]
  · intro s k ms now h1 h2
    unfold saveMapState
    rw [h1]
    simp [h2]
  · intro s p ms now e h
    have hne : ¬ (buildKey p = "") := buildKey_ne_empty p
    have hs : saveMapState s (some p) ms now
        = { s with
            cache := assocSet s.cache (buildKey p)
              { e with mapState := ms, ts := now }
            lastKey := some (buildKey p) } := by
      unfold saveMapState
      simp only [h, if_neg hne]
    rw [hs]
    exact ⟨assocGet_assocSet_self _ _ _,
      assocSet_keys_overwrite _ _ _ (assocGet_some_any _ _ _ h),
      fun k' hk' => assocGet_assocSet_ne _ _ _ _ hk',
      rfl, rfl, rfl, rfl, rfl⟩
  · intro s k ms now e h1 hne h2
    have hs : saveMapState s none ms now
        = { s with
            cache := assocSet s.cache k { e with mapState := ms, ts := now }
            lastKey := some k } := by
      unfold saveMapState
      rw [h1]
      simp only [h2, if_neg hne]
    rw [hs]
    exact ⟨assocGet_assocSet_self _ _ _,
      assocSet_keys_overwrite _ _ _ (assocGet_some_any _ _ _ h2),
      h1.symm,
      fun k' hk' => assocGet_assocSet_ne _ _ _ _ hk'⟩

/-- Witness for C7 (amended): the present entry gets the new map state and
timestamp at a concrete store, and a `saveMapState` for an absent key is a
complete no-op. -/
theorem saveMapState_amended_witness :
    assocGet (saveMapState stFixAB (some pFixA) (some msFix) 3).cache
        (buildKey pFixA)
      = some { eFixA with mapState := some msFix, ts := 3 }
    ∧ saveMapState stFixAB
        (some { mode := some "text", q := some "zzz", sw := none, ne := none })
        (some msFix) 3
      = stFixAB :=
  ⟨(saveMapState_amended.2.2.2.1 stFixAB pFixA (some msFix) 3 eFixA
      (by decide)).1,
   saveMapState_amended.2.1 stFixAB
      { mode := some "text", q := some "zzz", sw := none, ne := none }
      (some msFix) 3 (by decide)⟩

/-- **C6.** Message validation: the dispatcher silently drops (delivers
nothing — and, being a total function, raises nothing) every payload that is
not a well-formed object, lacks a truthy `type` discriminator, or whose
`type` does not stringify into the fixed allow-list; and on the spec's three
concrete payloads it delivers the wrapped `AGENT_SEARCH` message and the bare
`AGENT_UI` message and drops `{ foo: "bar" }`. -/
theorem dispatcher_validation :
    (∀ v : JsVal,
      (isTruthy v = false ∨ typeofObject v = false
        ∨ isTruthy (getProp v "type") = false
        ∨ allowedTypes.contains (jsString (getProp v "type")) = false) →
      applyMsg v = none)
    ∧ dispatchResponse msgWrappedFix = [msgSearchFix]
    ∧ dispatchResponse msgUiFix = [msgUiFix]
    ∧ dispatchResponse msgBadFix = [] := by
  refine ⟨?_, rfl, rfl, rfl⟩
  intro v h
  unfold applyMsg
  rcases h with h | h | h | h
  · simp [h]
  · simp [h]
  · simp [h]
  · have h' : jsString (getProp v "type") ∉ allowedTypes := by simpa using h
    simp [h']

/-- Witness for C6: the malformed payload `{ foo: "bar" }` lacks a `type`
discriminator and is dropped by `apply`. -/
theorem dispatcher_validation_witness : applyMsg msgBadFix = none :=
  dispatcher_validation.1 msgBadFix (Or.inr (Or.inr (Or.inl rfl)))

theorem pushRun_frozen :
    ∀ (evts : List PushEvent) (s : PushState),
      s.closed = true → s.timerPending = false → pushRun s evts = s := by
  intro evts
  induction evts with
  | nil => intro s h1 h2; rfl
  | cons e t ih =>
    intro s h1 h2
    have hstep : pushStep s e = s := by
      cases e
      · simp [pushStep, h1]
      · simp [pushStep, h2]
      · cases s
        simp only at h1
        simp [pushStep, h1]
    show pushRun (pushStep s e) t = s
    rw [hstep]
    exact ih s h1 h2

theorem pushRun_closed_bound :
    ∀ (evts : List PushEvent) (s : PushState), s.closed = true →
      (pushRun s evts).connects
          ≤ s.connects + (if s.timerPending = true then 1 else 0)
        ∧ (pushRun s evts).closed = true := by
  intro evts
  induction evts with
  | nil =>
    intro s h1
    constructor
    · show s.connects ≤ _
      split <;> omega
    · exact h1
  | cons e t ih =>
    intro s h1
    show (pushRun (pushStep s e) t).connects ≤ _
      ∧ (pushRun (pushStep s e) t).closed = true
    cases e with
    | wsClose =>
      have hstep : pushStep s PushEvent.wsClose = s := by
        simp [pushStep, h1]
      rw [hstep]
      exact ih s h1
    | timerFire =>
      by_cases hp : s.timerPending = true
      · have hstep : pushStep s PushEvent.timerFire
            = { s with timerPending := false, connects := s.connects + 1 } := by
          simp [pushStep, hp]
        rw [hstep]
        rcases ih { s with timerPending := false, connects := s.connects + 1 }
          h1 with ⟨hle, hcl⟩
        refine ⟨?_, hcl⟩
        simp at hle
        rw [if_pos hp]
        omega
      · have hstep : pushStep s PushEvent.timerFire = s := by
          simp [pushStep, hp]
        rw [hstep]
        exact ih s h1
    | teardown =>
      have hstep : pushStep s PushEvent.teardown = s := by
        cases s
        simp only at h1
        simp [pushStep, h1]
      rw [hstep]
      exact ih s h1

/-- **C9 counterexample.** The claim says that after teardown "no further
reconnect or poll attempt is ever made", but `startAgentSocket`'s teardown
only sets the `closed` flag and closes the current socket — it does not
cancel a reconnect timer that the close handler already scheduled.  Trace:
the socket drops (scheduling the 1200 ms reconnect), teardown runs, and the
pending timer still fires, performing one more `new WebSocket` connection
attempt after teardown. -/
theorem transport_teardown_counterexample :
    (pushRun pushInit [PushEvent.wsClose, PushEvent.teardown]).closed = true
    ∧ (pushRun pushInit
        [PushEvent.wsClose, PushEvent.teardown, PushEvent.timerFire]).connects
      = pushInit.connects + 1 := by decide

/-- **C9 (amended).** The `AgentBridge` poll transport's teardown (the `stop`
flag) is idempotent and stops every further poll attempt.  The
`startAgentSocket` push transport's teardown is idempotent, does not itself
connect, and after it the close handler never schedules a new reconnect: if
no reconnect timer is pending at teardown, no further connection attempt is
ever made; a timer already pending at teardown fires at most one final
connection attempt.  (The legacy `connectAgentSocket` variant exposes no
teardown at all — its close handler reconnects unconditionally.) -/
theorem transport_teardown_amended :
    (∀ s : PollState, pollTeardown (pollTeardown s) = pollTeardown s)
    ∧ (∀ (s : PollState) (n : Nat),
        (pollRun (pollTeardown s) n).polls = s.polls)
    ∧ (∀ s : PushState,
        pushStep (pushStep s PushEvent.teardown) PushEvent.teardown
          = pushStep s PushEvent.teardown)
    ∧ (∀ s : PushState,
        (pushStep s PushEvent.teardown).closed = true
        ∧ (pushStep s PushEvent.teardown).connects = s.connects
        ∧ (pushStep s PushEvent.teardown).timerPending = s.timerPending)
    ∧ (∀ (evts : List PushEvent) (s : PushState),
        s.closed = true → s.timerPending = false → pushRun s evts = s)
    ∧ (∀ (evts : List PushEvent) (s : PushState), s.closed = true →
        (pushRun s evts).connects
          ≤ s.connects + (if s.timerPending = true then 1 else 0))
    ∧ connectAgentSocketOnClose = true := by
  have pollStopped : ∀ (n : Nat) (s : PollState), s.stop = true →
      pollRun s n = s := by
    intro n
    induction n with
    | zero => intro s h; rfl
    | succ n ih =>
      intro s h
      show pollRun (pollStep s) n = s
      have hstep : pollStep s = s := by
        unfold pollStep; rw [if_pos h]
      rw [hstep]
      exact ih s h
  refine ⟨fun s => rfl, ?_, fun s => rfl, fun s => ⟨rfl, rfl, rfl⟩,
    pushRun_frozen, fun evts s h => (pushRun_closed_bound evts s h).1, rfl⟩
  intro s n
  rw [pollStopped n (pollTeardown s) rfl]
  rfl

/-- Witness for C9 (amended) at concrete transport states: a stopped poll
loop issues no further fetches, and a torn-down push transport with no
pending timer is frozen. -/
theorem transport_teardown_amended_witness :
    (pollRun (pollTeardown { stop := false, polls := 4 }) 5).polls = 4
    ∧ pushRun { closed := true, timerPending := false, connects := 2 }
        [PushEvent.wsClose, PushEvent.timerFire, PushEvent.wsClose]
      = { closed := true, timerPending := false, connects := 2 }
    ∧ (pushRun { closed := true, timerPending := true, connects := 2 }
        [PushEvent.timerFire, PushEvent.wsClose]).connects ≤ 2 + 1 :=
  ⟨transport_teardown_amended.2.1 { stop := false, polls := 4 } 5,
   transport_teardown_amended.2.2.2.2.1 _ _ rfl rfl,
   transport_teardown_amended.2.2.2.2.2.1 _
     { closed := true, timerPending := true, connects := 2 } rfl⟩

/-- **C3 counterexample.** The claim says every params on which `getResults`
returns a (non-expired) entry is served from cache with no network call, but
the code's hit test is `if (cached?.results?.length)`: a cached entry with an
EMPTY results array is treated as a miss and `runSearch` issues the fetch
anyway.  Concretely, with a non-expired empty-results entry present,
`getResults` returns it yet `runSearch` issues a network request. -/
theorem cache_hit_counterexample :
    (getResults stFixEmptyRes pFixA 5).isSome = true
    ∧ (runSearchStart (initDash stFixEmptyRes) pFixA none 5).fetches ≠ [] := by
  decide

/-- **C3 (amended).** For every params on which `getResults` returns a
non-expired cache entry with a NONEMPTY results list, `runSearch` publishes
that entry's results immediately, marks the state restored-from-cache, clears
loading, and issues no network call. -/
theorem cache_hit_no_fetch (s : DashState) (p : Params) (src : Option String)
    (now : Nat) (e : CacheEntry)
    (h1 : getResults s.store p now = some e) (h2 : e.results ≠ []) :
    (runSearchStart s p src now).fetches = s.fetches
    ∧ (runSearchStart s p src now).properties = e.results
    ∧ (runSearchStart s p src now).published = s.published ++ [e.results]
    ∧ (runSearchStart s p src now).store = markRestored s.store true
    ∧ (runSearchStart s p src now).loading = false := by
  have hemp : e.results.isEmpty = false := by
    cases hr : e.results with
    | nil => exact absurd hr h2
    | cons a t => rfl
  have hhit : cacheHit s.store p now = some e := by
    simp [cacheHit, h1, hemp]
  rcases hca : s.currentAbort with _ | g <;>
    simp [runSearchStart, hca, hhit]

/-- Witness for C3 (amended) at a concrete store with a nonempty cached
result list. -/
theorem cache_hit_no_fetch_witness :
    (runSearchStart (initDash stFixW) pFixW none 2000).fetches
      = (initDash stFixW).fetches
    ∧ (runSearchStart (initDash stFixW) pFixW none 2000).properties
      = eFixW.results
    ∧ (runSearchStart (initDash stFixW) pFixW none 2000).published
      = (initDash stFixW).published ++ [eFixW.results]
    ∧ (runSearchStart (initDash stFixW) pFixW none 2000).store
      = markRestored (initDash stFixW).store true
    ∧ (runSearchStart (initDash stFixW) pFixW none 2000).loading = false :=
  cache_hit_no_fetch (initDash stFixW) pFixW none 2000 eFixW
    (by decide) (by decide)

/-- **C8.** Search failure vs. cancellation: a fetch that fails for a reason
other than cancellation publishes an empty result set and triggers no cache
write; a fetch whose generation was superseded (cancelled) is discarded
silently — no publish, no cache write, no error state, only the `finally`
clearing of the loading flag. -/
theorem failure_vs_cancellation :
    (∀ (s : DashState) (gen : Nat) (p : Params) (src : Option String)
        (now : Nat),
      gen ∉ s.aborted →
      (runSearchComplete s gen p src FetchOutcome.failure now).store = s.store
      ∧ (runSearchComplete s gen p src FetchOutcome.failure now).properties
        = []
      ∧ (runSearchComplete s gen p src FetchOutcome.failure now).published
        = s.published ++ [[]]
      ∧ (runSearchComplete s gen p src FetchOutcome.failure now).loading
        = false)
    ∧ (∀ (s : DashState) (gen : Nat) (p : Params) (src : Option String)
        (o : FetchOutcome) (now : Nat),
      gen ∈ s.aborted →
      runSearchComplete s gen p src o now = { s with loading := false }) := by
  constructor
  · intro s gen p src now h
    simp [runSearchComplete, h]
  · intro s gen p src o now h
    simp [runSearchComplete, h]

/-- Witness for C8: a non-cancelled failure publishes `[]` without writing
the cache, and a cancelled completion only clears the loading flag. -/
theorem failure_vs_cancellation_witness :
    (runSearchComplete (initDash emptyStore) 0 pFixA none
        FetchOutcome.failure 7).store = (initDash emptyStore).store
    ∧ runSearchComplete { initDash emptyStore with aborted := [0] } 0 pFixA
        none (FetchOutcome.success (some [{ id := "x" }])) 7
      = { { initDash emptyStore with aborted := [0] } with loading := false } :=
  ⟨(failure_vs_cancellation.1 (initDash emptyStore) 0 pFixA none 7
      (by decide)).1,
   failure_vs_cancellation.2 { initDash emptyStore with aborted := [0] } 0
      pFixA none (FetchOutcome.success (some [{ id := "x" }])) 7 (by decide)⟩

/-- **C1.** Single-flight search: when a second `runSearch` call is issued
before the first call's fetch resolves (both calls missing the cache), and
the first call's response arrives after the second call's response, exactly
one result set is published — the second call's — the cache write is keyed by
the second call's params, and the superseded first request's completion is a
no-op on the component state. -/
theorem single_flight (s0 : DashState) (p1 p2 : Params)
    (src1 src2 : Option String) (r2 : List Place) (o1 : FetchOutcome)
    (now1 now2 now3 now4 : Nat)
    (h1 : cacheHit s0.store p1 now1 = none)
    (h2 : cacheHit s0.store p2 now2 = none)
    (hab : ∀ g ∈ s0.aborted, g < s0.nextGen)
    (hcur : ∀ g, s0.currentAbort = some g → g < s0.nextGen) :
    runSearchComplete
        (runSearchComplete
          (runSearchStart (runSearchStart s0 p1 src1 now1) p2 src2 now2)
          (s0.nextGen + 1) p2 src2 (FetchOutcome.success (some r2)) now3)
        s0.nextGen p1 src1 o1 now4
      = runSearchComplete
          (runSearchStart (runSearchStart s0 p1 src1 now1) p2 src2 now2)
          (s0.nextGen + 1) p2 src2 (FetchOutcome.success (some r2)) now3
    ∧ (runSearchComplete
          (runSearchStart (runSearchStart s0 p1 src1 now1) p2 src2 now2)
          (s0.nextGen + 1) p2 src2 (FetchOutcome.success (some r2))
          now3).published
      = s0.published ++ [r2]
    ∧ (runSearchComplete
          (runSearchStart (runSearchStart s0 p1 src1 now1) p2 src2 now2)
          (s0.nextGen + 1) p2 src2 (FetchOutcome.success (some r2))
          now3).properties
      = r2
    ∧ (runSearchComplete
          (runSearchStart (runSearchStart s0 p1 src1 now1) p2 src2 now2)
          (s0.nextGen + 1) p2 src2 (FetchOutcome.success (some r2))
          now3).store
      = markRestored (saveResults s0.store p2 r2 s0.mapRef now3) false := by
  rcases hca : s0.currentAbort with _ | g
  case none =>
    have hs1 : runSearchStart s0 p1 src1 now1
        = { s0 with
            currentAbort := some s0.nextGen
            nextGen := s0.nextGen + 1
            loading := true
            selected := none
            fetches := s0.fetches ++ [(s0.nextGen, p1)] } := by
      simp [runSearchStart, hca, h1]
    have hs2 : runSearchStart (runSearchStart s0 p1 src1 now1) p2 src2 now2
        = { s0 with
            aborted := s0.nextGen :: s0.aborted
            currentAbort := some (s0.nextGen + 1)
            nextGen := s0.nextGen + 1 + 1
            loading := true
            selected := none
            fetches := s0.fetches ++ [(s0.nextGen, p1)]
              ++ [(s0.nextGen + 1, p2)] } := by
      rw [hs1]
      simp [runSearchStart, h2]
    have hnm : (s0.nextGen + 1) ∉ (s0.nextGen :: s0.aborted) := by
      intro hmem
      rcases List.mem_cons.mp hmem with h | h
      · omega
      · exact absurd (hab _ h) (by omega)
    have hs3 : runSearchComplete
          (runSearchStart (runSearchStart s0 p1 src1 now1) p2 src2 now2)
          (s0.nextGen + 1) p2 src2 (FetchOutcome.success (some r2)) now3
        = { s0 with
            aborted := s0.nextGen :: s0.aborted
            currentAbort := some (s0.nextGen + 1)
            nextGen := s0.nextGen + 1 + 1
            loading := false
            selected := none
            properties := r2
            published := s0.published ++ [r2]
            store := markRestored (saveResults s0.store p2 r2 s0.mapRef now3)
              false
            agentBanner := if src2 = some "agent"
              then some (agentBannerText p2) else s0.agentBanner
            fetches := s0.fetches ++ [(s0.nextGen, p1)]
              ++ [(s0.nextGen + 1, p2)] } := by
      rw [hs2]
      simp [runSearchComplete, hnm]
    rw [hs3]
    have hmem : s0.nextGen ∈ (s0.nextGen :: s0.aborted) :=
      List.mem_cons_self _ _
    refine ⟨?_, rfl, rfl, rfl⟩
    simp [runSearchComplete, hmem]
  case some =>
    have hg : g < s0.nextGen := hcur g hca
    have hs1 : runSearchStart s0 p1 src1 now1
        = { s0 with
            aborted := g :: s0.aborted
            currentAbort := some s0.nextGen
            nextGen := s0.nextGen + 1
            loading := true
            selected := none
            fetches := s0.fetches ++ [(s0.nextGen, p1)] } := by
      simp [runSearchStart, hca, h1]
    have hs2 : runSearchStart (runSearchStart s0 p1 src1 now1) p2 src2 now2
        = { s0 with
            aborted := s0.nextGen :: g :: s0.aborted
            currentAbort := some (s0.nextGen + 1)
            nextGen := s0.nextGen + 1 + 1
            loading := true
            selected := none
            fetches := s0.fetches ++ [(s0.nextGen, p1)]
              ++ [(s0.nextGen + 1, p2)] } := by
      rw [hs1]
      simp [runSearchStart, h2]
    have hnm : (s0.nextGen + 1) ∉ (s0.nextGen :: g :: s0.aborted) := by
      intro hmem
      rcases List.mem_cons.mp hmem with h | h
      · omega
      · rcases List.mem_cons.mp h with h | h
        · omega
        · exact absurd (hab _ h) (by omega)
    have hs3 : runSearchComplete
          (runSearchStart (runSearchStart s0 p1 src1 now1) p2 src2 now2)
          (s0.nextGen + 1) p2 src2 (FetchOutcome.success (some r2)) now3
        = { s0 with
            aborted := s0.nextGen :: g :: s0.aborted
            currentAbort := some (s0.nextGen + 1)
            nextGen := s0.nextGen + 1 + 1
            loading := false
            selected := none
            properties := r2
            published := s0.published ++ [r2]
            store := markRestored (saveResults s0.store p2 r2 s0.mapRef now3)
              false
            agentBanner := if src2 = some "agent"
              then some (agentBannerText p2) else s0.agentBanner
            fetches := s0.fetches ++ [(s0.nextGen, p1)]
              ++ [(s0.nextGen + 1, p2)] } := by
      rw [hs2]
      simp [runSearchComplete, hnm]
    rw [hs3]
    have hmem : s0.nextGen ∈ (s0.nextGen :: g :: s0.aborted) :=
      List.mem_cons_self _ _
    refine ⟨?_, rfl, rfl, rfl⟩
    simp [runSearchComplete, hmem]

/-- Witness for C1 at a concrete scenario: two back-to-back searches from a
fresh dashboard over an empty store; the first fetch settles (with a failure,
say) after the second fetch's successful response. -/
theorem single_flight_witness :
    runSearchComplete
        (runSearchComplete
          (runSearchStart (runSearchStart (initDash emptyStore) pFixA none 1)
            pFixB none 2)
          ((initDash emptyStore).nextGen + 1) pFixB none
          (FetchOutcome.success (some [{ id := "x" }])) 3)
        (initDash emptyStore).nextGen pFixA none FetchOutcome.failure 4
      = runSearchComplete
          (runSearchStart (runSearchStart (initDash emptyStore) pFixA none 1)
            pFixB none 2)
          ((initDash emptyStore).nextGen + 1) pFixB none
          (FetchOutcome.success (some [{ id := "x" }])) 3
    ∧ (runSearchComplete
          (runSearchStart (runSearchStart (initDash emptyStore) pFixA none 1)
            pFixB none 2)
          ((initDash emptyStore).nextGen + 1) pFixB none
          (FetchOutcome.success (some [{ id := "x" }])) 3).published
      = (initDash emptyStore).published ++ [[{ id := "x" }]]
    ∧ (runSearchComplete
          (runSearchStart (runSearchStart (initDash emptyStore) pFixA none 1)
            pFixB none 2)
          ((initDash emptyStore).nextGen + 1) pFixB none
          (FetchOutcome.success (some [{ id := "x" }])) 3).properties
      = [{ id := "x" }]
    ∧ (runSearchComplete
          (runSearchStart (runSearchStart (initDash emptyStore) pFixA none 1)
            pFixB none 2)
          ((initDash emptyStore).nextGen + 1) pFixB none
          (FetchOutcome.success (some [{ id := "x" }])) 3).store
      = markRestored
          (saveResults (initDash emptyStore).store pFixB [{ id := "x" }]
            (initDash emptyStore).mapRef 3) false :=
  single_flight (initDash emptyStore) pFixA pFixB none none [{ id := "x" }]
    FetchOutcome.failure 1 2 3 4 (by decide) (by decide) (by decide)
    (fun g h => nomatch h)

/-! ## Eviction lemmas (towards C2) -/

theorem drop_append_of_le {α : Type} (l₁ l₂ : List α) (n : Nat)
    (h : n ≤ l₁.length) : (l₁ ++ l₂).drop n = l₁.drop n ++ l₂ := by
  induction l₁ generalizing n with
  | nil =>
    simp only [List.length_nil, Nat.le_zero] at h
    subst h
    simp
  | cons x t ih =>
    cases n with
    | zero => simp
    | succ n =>
      simp only [List.cons_append, List.drop_succ_cons]
      exact ih n (by simpa using h)

theorem sweepExpired_eq_self (now : Nat) (c : List (String × CacheEntry))
    (h : ∀ kv ∈ c, ¬(kv.2.ts ≠ 0 ∧ now - kv.2.ts > TTL_MS)) :
    sweepExpired now c = c := by
  unfold sweepExpired
  apply List.filter_eq_self.mpr
  intro kv hmem
  have hk := h kv hmem
  simp only [Bool.not_eq_true']
  rw [Bool.and_eq_false_iff]
  by_cases h0 : kv.2.ts = 0
  · left; simp [h0]
  · right
    simp only [decide_eq_false_iff_not]
    intro hgt
    exact hk ⟨h0, hgt⟩

theorem filter_take_drop {α : Type} :
    ∀ (c : List (String × α)) (d : Nat), (c.map Prod.fst).Nodup →
      c.filter (fun kv => !(((c.take d).map Prod.fst).contains kv.1))
        = c.drop d := by
  intro c
  induction c with
  | nil => intro d h; simp
  | cons x t ih =>
    intro d h
    cases d with
    | zero =>
      simp only [List.take_zero, List.map_nil, List.contains_nil,
        Bool.not_false, List.drop_zero]
      exact List.filter_eq_self.mpr (fun kv _ => rfl)
    | succ d =>
      simp only [List.take_succ_cons, List.map_cons, List.drop_succ_cons]
      have hx : x.1 ∉ t.map Prod.fst := by
        intro hmem
        simp only [List.map_cons, List.nodup_cons] at h
        exact h.1 hmem
      have hnd : (t.map Prod.fst).Nodup := by
        simp only [List.map_cons, List.nodup_cons] at h
        exact h.2
      rw [List.filter_cons]
      have hhead : (!((x.1 :: (t.take d).map Prod.fst).contains x.1)) = false := by
        simp
      rw [hhead]
      simp only [Bool.false_eq_true, if_false]
      have hcongr : t.filter
            (fun kv => !((x.1 :: (t.take d).map Prod.fst).contains kv.1))
          = t.filter (fun kv => !(((t.take d).map Prod.fst).contains kv.1)) := by
        apply List.filter_congr
        intro kv hkv
        have hne : kv.1 ≠ x.1 := by
          intro he
          exact hx (he ▸ List.mem_map_of_mem Prod.fst hkv)
        simp [List.contains_cons, hne]
      rw [hcongr]
      exact ih d hnd

theorem capacityEvict_sorted (c : List (String × CacheEntry))
    (hs : List.Sorted (fun a b : String × CacheEntry => a.2.ts ≤ b.2.ts) c)
    (hn : (c.map Prod.fst).Nodup) :
    capacityEvict c = c.drop (c.length - MAX_KEYS) := by
  unfold capacityEvict
  by_cases hlen : c.length > MAX_KEYS
  · rw [if_pos hlen]
    rw [List.Sorted.insertionSort_eq hs]
    exact filter_take_drop c (c.length - MAX_KEYS) hn
  · rw [if_neg hlen]
    have : c.length - MAX_KEYS = 0 := by omega
    rw [this, List.drop_zero]

theorem capacityEvict_length (c : List (String × CacheEntry))
    (hn : (c.map Prod.fst).Nodup) :
    (capacityEvict c).length = min c.length MAX_KEYS := by
  unfold capacityEvict
  by_cases hlen : c.length > MAX_KEYS
  · rw [if_pos hlen]
    have hperm : List.Perm
        (c.insertionSort (fun a b : String × CacheEntry => a.2.ts ≤ b.2.ts)) c :=
      List.perm_insertionSort _ c
    have hnds : ((c.insertionSort
        (fun a b : String × CacheEntry => a.2.ts ≤ b.2.ts)).map Prod.fst).Nodup :=
      ((hperm.map Prod.fst).nodup_iff).mpr hn
    have hlens : (c.insertionSort
        (fun a b : String × CacheEntry => a.2.ts ≤ b.2.ts)).length = c.length :=
      List.length_insertionSort _ c
    have hflen : (c.filter (fun kv =>
          !((((c.insertionSort (fun a b : String × CacheEntry =>
              a.2.ts ≤ b.2.ts)).take (c.length - MAX_KEYS)).map
            Prod.fst).contains kv.1))).length
        = ((c.insertionSort (fun a b : String × CacheEntry =>
            a.2.ts ≤ b.2.ts)).filter (fun kv =>
          !((((c.insertionSort (fun a b : String × CacheEntry =>
              a.2.ts ≤ b.2.ts)).take (c.length - MAX_KEYS)).map
            Prod.fst).contains kv.1))).length :=
      (List.Perm.length_eq (hperm.filter _)).symm
    rw [hflen]
    have hdrop := filter_take_drop
      (c.insertionSort (fun a b : String × CacheEntry => a.2.ts ≤ b.2.ts))
      (c.length - MAX_KEYS) hnds
    rw [hdrop, List.length_drop, hlens]
    omega
  · rw [if_neg hlen]
    omega

theorem any_key_false_of_not_mem {α : Type} (c : List (String × α))
    (k : String) (h : k ∉ c.map Prod.fst) :
    c.any (fun kv => kv.1 = k) = false := by
  cases hany : c.any (fun kv => kv.1 = k)
  · rfl
  · rcases List.any_eq_true.mp hany with ⟨kv, hmem, hpred⟩
    have hk : kv.1 = k := of_decide_eq_true hpred
    exact absurd (hk ▸ List.mem_map_of_mem Prod.fst hmem) h

theorem saveResults_step (s : StoreState) (p : Params) (rs : List Place)
    (t : Nat)
    (hfresh : s.cache.any (fun kv => kv.1 = buildKey p) = false)
    (hsorted : List.Sorted (fun a b : String × CacheEntry => a.2.ts ≤ b.2.ts)
      (s.cache ++ [entryOf (p, rs, t)]))
    (hnodup : ((s.cache ++ [entryOf (p, rs, t)]).map Prod.fst).Nodup)
    (hexp : ∀ kv ∈ s.cache ++ [entryOf (p, rs, t)],
      ¬(kv.2.ts ≠ 0 ∧ t - kv.2.ts > TTL_MS)) :
    (saveResults s p rs none t).cache
      = (s.cache ++ [entryOf (p, rs, t)]).drop
          ((s.cache.length + 1) - MAX_KEYS) := by
  have h1 : assocSet s.cache (buildKey p)
      { results := rs, params := p, mapState := none, ts := t }
      = s.cache ++ [entryOf (p, rs, t)] := by
    rw [assocSet_keys_fresh _ _ _ hfresh]
    rfl
  have hcache : (saveResults s p rs none t).cache
      = evictIfNeeded t (assocSet s.cache (buildKey p)
          { results := rs, params := p, mapState := none, ts := t }) := rfl
  rw [hcache, h1]
  unfold evictIfNeeded
  rw [sweepExpired_eq_self t _ hexp]
  rw [capacityEvict_sorted _ hsorted hnodup]
  congr 1
  simp [List.length_append]

theorem saveMany_cache :
    ∀ (items : List (Params × List Place × Nat)) (s : StoreState),
      s.cache.length ≤ MAX_KEYS →
      ((s.cache ++ items.map entryOf).map Prod.fst).Nodup →
      List.Sorted (fun a b : String × CacheEntry => a.2.ts ≤ b.2.ts)
        (s.cache ++ items.map entryOf) →
      List.Pairwise (fun a b : String × CacheEntry =>
        b.2.ts - a.2.ts ≤ TTL_MS) (s.cache ++ items.map entryOf) →
      (saveMany s items).cache
        = (s.cache ++ items.map entryOf).drop
            ((s.cache.length + items.length) - MAX_KEYS) := by
  intro items
  induction items with
  | nil =>
    intro s hlen _ _ _
    have h0 : s.cache.length - MAX_KEYS = 0 := by
      simp only [MAX_KEYS] at hlen ⊢
      omega
    simp [saveMany, h0]
  | cons it rest ih =>
    intro s hlen hnodup hsorted httl
    have hfull : s.cache ++ ((it :: rest).map entryOf)
        = (s.cache ++ [entryOf it]) ++ rest.map entryOf := by
      simp
    -- the new key is fresh in the current cache
    have hkey : entryOf it ∈ s.cache ++ (it :: rest).map entryOf := by
      apply List.mem_append_right
      simp
    have hprefix_sub : (s.cache ++ [entryOf it]).Sublist
        (s.cache ++ (it :: rest).map entryOf) := by
      apply List.Sublist.append_left
      simp only [List.map_cons]
      exact List.cons_sublist_cons.mpr (List.nil_sublist _)
    have hnodup_step : ((s.cache ++ [entryOf it]).map Prod.fst).Nodup :=
      List.Nodup.sublist (List.Sublist.map Prod.fst hprefix_sub) hnodup
    have hfresh : s.cache.any (fun kv => kv.1 = (entryOf it).1) = false := by
      apply any_key_false_of_not_mem
      intro hmem
      have h2 := hnodup_step
      rw [List.map_append] at h2
      rcases List.nodup_append.mp h2 with ⟨_, _, hdisj⟩
      exact hdisj hmem (by simp)
    have hsorted_step : List.Sorted
        (fun a b : String × CacheEntry => a.2.ts ≤ b.2.ts)
        (s.cache ++ [entryOf it]) :=
      List.Pairwise.sublist hprefix_sub hsorted
    have hexp_step : ∀ kv ∈ s.cache ++ [entryOf it],
        ¬(kv.2.ts ≠ 0 ∧ it.2.2 - kv.2.ts > TTL_MS) := by
      intro kv hkv
      rcases List.mem_append.mp hkv with hkv | hkv
      · -- kv is an older entry; the TTL pairwise bound applies across ++
        have hcross := (List.pairwise_append.mp httl).2.2
        have hR := hcross kv hkv (entryOf it) (by simp)
        have hts : (entryOf it).2.ts = it.2.2 := rfl
        rw [hts] at hR
        intro hc
        omega
      · -- kv is the freshly written entry: its age is zero
        have hkv' : kv = entryOf it := by simpa using hkv
        subst hkv'
        have hts : (entryOf it).2.ts = it.2.2 := rfl
        intro hc
        rw [hts] at hc
        omega
    have hstep' : (saveResults s it.1 it.2.1 none it.2.2).cache
        = (s.cache ++ [entryOf it]).drop ((s.cache.length + 1) - MAX_KEYS) :=
      saveResults_step s it.1 it.2.1 it.2.2 hfresh hsorted_step hnodup_step
        hexp_step
    -- run the remaining writes from the evicted state
    have hrun : saveMany s (it :: rest)
        = saveMany (saveResults s it.1 it.2.1 none it.2.2) rest := rfl
    set s' := saveResults s it.1 it.2.1 none it.2.2 with hs'
    set d := (s.cache.length + 1) - MAX_KEYS with hd
    have hdle : d ≤ (s.cache ++ [entryOf it]).length := by
      simp only [List.length_append, List.length_cons, List.length_nil]
      omega
    have hfull_drop : s'.cache ++ rest.map entryOf
        = (s.cache ++ (it :: rest).map entryOf).drop d := by
      rw [hfull, drop_append_of_le _ _ d hdle, hstep']
    have hsub_drop : (s'.cache ++ rest.map entryOf).Sublist
        (s.cache ++ (it :: rest).map entryOf) := by
      rw [hfull_drop]
      exact List.drop_sublist d _
    have hslen : s'.cache.length = (s.cache.length + 1) - d := by
      rw [hstep', List.length_drop]
      simp [List.length_append]
    have hlen' : s'.cache.length ≤ MAX_KEYS := by
      rw [hslen]
      simp only [hd, MAX_KEYS] at *
      omega
    have hnodup' : ((s'.cache ++ rest.map entryOf).map Prod.fst).Nodup :=
      List.Nodup.sublist (List.Sublist.map Prod.fst hsub_drop) hnodup
    have hsorted' : List.Sorted
        (fun a b : String × CacheEntry => a.2.ts ≤ b.2.ts)
        (s'.cache ++ rest.map entryOf) :=
      List.Pairwise.sublist hsub_drop hsorted
    have httl' : List.Pairwise
        (fun a b : String × CacheEntry => b.2.ts - a.2.ts ≤ TTL_MS)
        (s'.cache ++ rest.map entryOf) :=
      List.Pairwise.sublist hsub_drop httl
    have hih := ih s' hlen' hnodup' hsorted' httl'
    rw [hrun, hih, hfull_drop, List.drop_drop]
    congr 1
    rw [hslen]
    simp only [hd, List.length_cons, MAX_KEYS] at *
    omega

theorem saveResults_length_le (s : StoreState) (p : Params) (rs : List Place)
    (ms : Option MapState) (now : Nat)
    (h : (s.cache.map Prod.fst).Nodup) :
    (saveResults s p rs ms now).cache.length ≤ MAX_KEYS := by
  have hcache : (saveResults s p rs ms now).cache
      = capacityEvict (sweepExpired now (assocSet s.cache (buildKey p)
          { results := rs, params := p, mapState := ms, ts := now })) := rfl
  rw [hcache]
  have h1 : ((assocSet s.cache (buildKey p)
      { results := rs, params := p, mapState := ms, ts := now }).map
        Prod.fst).Nodup :=
    assocSet_keys_nodup _ _ _ h
  have h2 : ((sweepExpired now (assocSet s.cache (buildKey p)
      { results := rs, params := p, mapState := ms, ts := now })).map
        Prod.fst).Nodup := by
    unfold sweepExpired
    exact List.Nodup.sublist
      (List.Sublist.map Prod.fst (List.filter_sublist _)) h1
  rw [capacityEvict_length _ h2]
  exact min_le_right _ _

/-- **C2.** Capacity eviction: every `saveResults` write (over a cache whose
keys are distinct, as JS object keys are) leaves at most `MAX_KEYS = 10`
entries; the eviction pass runs the expiry sweep before capacity eviction;
and after writing `N > MAX_KEYS` entries with pairwise-distinct keys and
(weakly) increasing timestamps, none of which can expire (every pair of
write instants is within TTL), the cache holds exactly the `MAX_KEYS`
entries with the largest timestamps — the last `MAX_KEYS` written. -/
theorem capacity_eviction :
    (∀ (s : StoreState) (p : Params) (rs : List Place) (ms : Option MapState)
        (now : Nat), (s.cache.map Prod.fst).Nodup →
      (saveResults s p rs ms now).cache.length ≤ MAX_KEYS)
    ∧ (∀ (now : Nat) (c : List (String × CacheEntry)),
      evictIfNeeded now c = capacityEvict (sweepExpired now c))
    ∧ (∀ items : List (Params × List Place × Nat),
      MAX_KEYS < items.length →
      ((items.map entryOf).map Prod.fst).Nodup →
      List.Sorted (fun a b : String × CacheEntry => a.2.ts ≤ b.2.ts)
        (items.map entryOf) →
      List.Pairwise (fun a b : String × CacheEntry =>
        b.2.ts - a.2.ts ≤ TTL_MS) (items.map entryOf) →
      (saveMany emptyStore items).cache
          = (items.map entryOf).drop (items.length - MAX_KEYS)
        ∧ (saveMany emptyStore items).cache.length = MAX_KEYS) := by
  refine ⟨saveResults_length_le, fun now c => rfl, ?_⟩
  intro items hN hnd hsort httl
  have hmain := saveMany_cache items emptyStore
    (by simp [emptyStore, MAX_KEYS])
    (by simpa [emptyStore] using hnd)
    (by simpa [emptyStore] using hsort)
    (by simpa [emptyStore] using httl)
  have h1 : (saveMany emptyStore items).cache
      = (items.map entryOf).drop (items.length - MAX_KEYS) := by
    simpa [emptyStore] using hmain
  refine ⟨h1, ?_⟩
  rw [h1, List.length_drop, List.length_map]
  simp only [MAX_KEYS] at hN ⊢
  omega

/-- Witness for C2: twelve writes with distinct keys and timestamps 1..12
leave exactly the ten youngest entries. -/
theorem capacity_eviction_witness :
    (saveMany emptyStore itemsFix).cache
        = (itemsFix.map entryOf).drop (itemsFix.length - MAX_KEYS)
    ∧ (saveMany emptyStore itemsFix).cache.length = MAX_KEYS :=
  capacity_eviction.2.2 itemsFix (by decide) (by decide) (by decide)
    (by decide)

end SpeakSpace
